import Mathlib

/-
Verification of the circle-detection repository (circle_detector.py, main.py).

The OpenCV image is modelled as a value: an explicit dimension count
(len(image.shape)) together with the pixel grid rows x cols x channel
samples.  Copying an image (ndarray.copy) yields an equal value, and the
OpenCV library routines used by the code (color conversion, blur, CLAHE,
HoughCircles, drawing primitives, codecs) are opaque parameters collected
in the record CvLib below: the code under verification never inspects
their output pixels, it only threads the buffers through.
-/

structure Image where
  ndims : Nat
  px : List (List (List Nat))

/-- Height of the image, numpy shape component 0 (number of pixel rows). -/
def Image.heightD (img : Image) : Nat := img.px.length

/-- Width of the image, numpy shape component 1 (number of pixel columns). -/
def Image.widthD (img : Image) : Nat := (img.px.headD []).length

/-- Detector configuration, the attributes set by CircleDetector.__init__
(circle_detector.py lines 13-31). -/
structure CircleDetector where
  dp : ℚ
  min_dist : Nat
  param1 : Nat
  param2 : Nat
  min_radius : Nat
  max_radius : Nat

/-- The default construction CircleDetector() with dp=1.2, min_dist=20,
param1=50, param2=30, min_radius=5, max_radius=300. -/
def defaultDetector : CircleDetector := ⟨6 / 5, 20, 50, 30, 5, 300⟩

/-- Opaque OpenCV library surface used by the code.  Fixed arguments the
source always passes (Gaussian kernel (9,9) sigma 2, CLAHE clipLimit 2.0
tile 8x8, addWeighted weights 0.7/0.3/0, font FONT_HERSHEY_SIMPLEX and
LINE_AA) are absorbed into the corresponding field.  hough stands for
cv2.HoughCircles followed by np.uint16(np.around(..)), so it yields the
rounded integer triples the loop consumes, or none when the call returns
None.  Each drawing primitive returns the new content of its destination
buffer. -/
structure CvLib where
  cvtColorGray : Image → Image
  gaussianBlur : Image → Image
  clahe : Image → Image
  hough : CircleDetector → Image → Option (List (Nat × Nat × Nat))
  circle : Image → Int × Int → Int → Nat × Nat × Nat → Int → Image
  addWeighted : Image → Image → Image
  getTextSize : String → ℚ → Nat → (Nat × Nat) × Nat
  putText : Image → String → Int × Int → ℚ → Nat × Nat × Nat → Nat → Image
  imread : String → Option Image
  imdecode : List Nat → Option Image

/-- Python int() truncation toward zero of a rational value. -/
def pyInt (q : ℚ) : Int := if 0 ≤ q then ⌊q⌋ else -⌊-q⌋

/-- circle_detector.py line 89: label_radius = max(15, min(radius // 2, 40)).
The marker-disk radius for the index label, computed from the detected
circle's radius. -/
def labelRadius (radius : Nat) : Nat := max 15 (min (radius / 2) 40)

/-- circle_detector.py line 96: font_scale = max(0.4, min(label_radius / 25, 1.5)). -/
def fontScale (lr : Nat) : ℚ := max (2 / 5) (min ((lr : ℚ) / 25) (3 / 2))

/-- One iteration of the drawing loop, circle_detector.py lines 83-113:
outer green circle, label background disk of radius labelRadius blended
with addWeighted, then the centered index text.  overlay = output.copy()
is a value copy; every cv2 call writes into the buffer named as its
destination (overlay, then output). -/
def drawOne (cv : CvLib) (i : Nat) (c : Nat × Nat × Nat) (output : Image) : Image :=
  let x := c.1
  let y := c.2.1
  let radius := c.2.2
  let output1 := cv.circle output ((x : Int), (y : Int)) (radius : Int) (0, 255, 0) 3
  let overlay := output1
  let lr := labelRadius radius
  let overlay1 := cv.circle overlay ((x : Int), (y : Int)) (lr : Int) (255, 100, 0) (-1)
  let output2 := cv.addWeighted overlay1 output1
  let label := toString i
  let fs := fontScale lr
  let thickness := max 1 (pyInt (fs * 2)).toNat
  let ts := cv.getTextSize label fs thickness
  let text_x := pyInt ((x : ℚ) - (ts.1.1 : ℚ) / 2)
  let text_y := pyInt ((y : ℚ) + (ts.1.2 : ℚ) / 2)
  cv.putText output2 label (text_x, text_y) fs (255, 255, 255) thickness

/-- The for-loop of detect_circles, circle_detector.py lines 79-115:
for i, circle in enumerate(circles[0, :], 1): the triple is appended to
detected_circles, the annotations are drawn on output, and count += 1. -/
def drawLoop (cv : CvLib) : Nat → List (Nat × Nat × Nat) →
    Nat × List (Nat × Nat × Nat) × Image → Nat × List (Nat × Nat × Nat) × Image
  | _, [], acc => acc
  | i, c :: rest, (count, detected, out) =>
      drawLoop cv (i + 1) rest (count + 1, detected ++ [c], drawOne cv i c out)

/-- Preprocessing of detect_circles, circle_detector.py lines 47-58:
grayscale conversion when the input has 3 dimensions (else gray is a copy
of the input), Gaussian blur, then CLAHE enhancement. -/
def enhancedOf (cv : CvLib) (image : Image) : Image :=
  cv.clahe (cv.gaussianBlur (if image.ndims == 3 then cv.cvtColorGray image else image))

/-- CircleDetector.detect_circles, circle_detector.py lines 33-117.
output = image.copy() (line 45) is a value copy; the Hough call on the
enhanced image either returns None, in which case the untouched copy is
returned with count 0 and an empty list, or yields the circle triples
consumed by the drawing loop. -/
def detect_circles (cv : CvLib) (d : CircleDetector) (image : Image) :
    Nat × List (Nat × Nat × Nat) × Image :=
  match cv.hough d (enhancedOf cv image) with
  | none => (0, [], image)
  | some cs => drawLoop cv 1 cs (0, [], image)

/-- detect_circles viewed as a method call: it reads the six configuration
attributes of self and assigns none of them, so the call returns the
result together with the unchanged detector object. -/
def detect_circles_method (cv : CvLib) (d : CircleDetector) (image : Image) :
    (Nat × List (Nat × Nat × Nat) × Image) × CircleDetector :=
  (detect_circles cv d image, d)

/-- detect_circles with the caller's image buffer tracked through the call:
every in-place cv2 drawing call in the body (lines 84, 90, 91, 109-113)
names output or overlay as its destination, never image, so the second
component, the final content of the caller's buffer, is the unmodified
input. -/
def detect_circles_tracked (cv : CvLib) (d : CircleDetector) (image : Image) :
    (Nat × List (Nat × Nat × Nat) × Image) × Image :=
  match cv.hough d (enhancedOf cv image) with
  | none => ((0, [], image), image)
  | some cs => (drawLoop cv 1 cs (0, [], image), image)

/-- The exception raised on load failures (Python ValueError, the spec's
InputError). -/
inductive PyError where
  | valueError (msg : String)

/-- Message of circle_detector.py line 131. -/
def imreadErrorMsg (filepath : String) : String :=
  "Не удалось загрузить изображение: " ++ filepath

/-- Message of circle_detector.py line 148. -/
def imdecodeErrorMsg : String :=
  "Не удалось декодировать изображение из байтов"

/-- CircleDetector.detect_from_file, circle_detector.py lines 119-133:
cv2.imread, ValueError when it returns None, else detect_circles. -/
def detect_from_file (cv : CvLib) (d : CircleDetector) (filepath : String) :
    Except PyError (Nat × List (Nat × Nat × Nat) × Image) :=
  match cv.imread filepath with
  | none => Except.error (PyError.valueError (imreadErrorMsg filepath))
  | some image => Except.ok (detect_circles cv d image)

/-- CircleDetector.detect_from_bytes, circle_detector.py lines 135-150:
np.frombuffer is a view of the byte buffer, so cv2.imdecode is applied to
the bytes; ValueError when it returns None, else detect_circles. -/
def detect_from_bytes (cv : CvLib) (d : CircleDetector) (image_bytes : List Nat) :
    Except PyError (Nat × List (Nat × Nat × Nat) × Image) :=
  match cv.imdecode image_bytes with
  | none => Except.error (PyError.valueError imdecodeErrorMsg)
  | some image => Except.ok (detect_circles cv d image)

/-- All channel samples of all pixels of the image. -/
def sampleList (img : Image) : List Nat :=
  img.px.foldr (fun row acc => row.foldr (fun p acc2 => p ++ acc2) acc) []

/-- A uniform blank image: every channel sample of every pixel carries the
same value, so the image has no dark regions and no edges. -/
def UniformImage (img : Image) : Prop :=
  ∀ a ∈ sampleList img, ∀ b ∈ sampleList img, a = b

instance : DecidablePred UniformImage := fun img =>
  inferInstanceAs (Decidable (∀ a ∈ sampleList img, ∀ b ∈ sampleList img, a = b))

/-- An image transform that maps uniform images to uniform images.  The
preprocessing stages of the pipeline (grayscale conversion, Gaussian
blur, CLAHE) all have this property. -/
def PreservesUniform (f : Image → Image) : Prop :=
  ∀ img, UniformImage img → UniformImage (f img)

/-- Modelled from the spec: cv2.HoughCircles is an external library
routine, not part of this repository.  Per section 4.3 and the glossary,
the circle-accumulator transform detects circles by accumulating
edge-gradient evidence, and a uniform blank image has no edges, so on a
uniform image the call yields no candidates (Scenario B). -/
def BlankYieldsNone (cv : CvLib) (d : CircleDetector) : Prop :=
  ∀ img, UniformImage img → cv.hough d img = none

/-- A concrete uniform 1x1 color image used as a test input. -/
def imgUniform : Image := ⟨3, [[[7, 7, 7]]]⟩

/-- A concrete library instance for witnesses: preprocessing is the
identity, the accumulator finds nothing, codecs decode nothing and the
drawing primitives leave the buffer untouched. -/
def cvNull : CvLib :=
  ⟨id, id, id, fun _ _ => none, fun img _ _ _ _ => img, fun img _ => img,
   fun _ _ _ => ((1, 1), 0), fun img _ _ _ _ _ => img, fun _ => none, fun _ => none⟩

lemma drawLoop_spec (cv : CvLib) (cs : List (Nat × Nat × Nat)) :
    ∀ (i count : Nat) (detected : List (Nat × Nat × Nat)) (out : Image),
      (drawLoop cv i cs (count, detected, out)).1 = count + cs.length ∧
      (drawLoop cv i cs (count, detected, out)).2.1 = detected ++ cs := by
  induction cs with
  | nil => intro i count detected out; simp [drawLoop]
  | cons c rest ih =>
    intro i count detected out
    have h := ih (i + 1) (count + 1) (detected ++ [c]) (drawOne cv i c out)
    simp only [drawLoop]
    refine ⟨h.1.trans ?_, h.2.trans (by simp)⟩
    rw [List.length_cons]
    omega

/-- C10: for every input image, the count returned by detect equals the
length of the returned circle list; each loop iteration appends one
circle and increments count once, and both are 0 on the None branch. -/
theorem count_eq_circles_length (cv : CvLib) (d : CircleDetector) (image : Image) :
    (detect_circles cv d image).1 = (detect_circles cv d image).2.1.length := by
  cases h : cv.hough d (enhancedOf cv image) with
  | none => simp [detect_circles, h]
  | some cs =>
    have hs := drawLoop_spec cv cs 1 0 [] image
    simp [detect_circles, h, hs.1, hs.2]

/-- C2: two successive invocations of detect_circles on the same image and
the same detector object return the same count and the same ordered
circle list; the method reads its configuration attributes and mutates no
state, so the second call starts from an identical detector. -/
theorem detect_deterministic (cv : CvLib) (d : CircleDetector) (image : Image) :
    (detect_circles_method cv ((detect_circles_method cv d image).2) image).1.1 =
      (detect_circles_method cv d image).1.1 ∧
    (detect_circles_method cv ((detect_circles_method cv d image).2) image).1.2.1 =
      (detect_circles_method cv d image).1.2.1 :=
  ⟨rfl, rfl⟩

/-- C5: detect_circles never mutates its input image: the annotation is
drawn on output = image.copy(), every in-place drawing call targets
output or overlay, and the caller's buffer tracked through the call is
returned byte-for-byte unchanged, while the first component is the usual
result. -/
theorem input_image_not_mutated (cv : CvLib) (d : CircleDetector) (image : Image) :
    (detect_circles_tracked cv d image).2 = image ∧
    (detect_circles_tracked cv d image).1 = detect_circles cv d image := by
  cases h : cv.hough d (enhancedOf cv image) <;>
    simp [detect_circles_tracked, detect_circles, h]

/-- C6: detect_from_file raises ValueError (the spec's InputError) exactly
when cv2.imread cannot decode the path, and detect_from_bytes raises it
exactly when cv2.imdecode cannot decode the buffer; in the failure cases
no result is produced and in the success cases the decoded image is
detected normally. -/
theorem detect_sources_input_error_iff (cv : CvLib) (d : CircleDetector)
    (filepath : String) (image_bytes : List Nat) :
    (cv.imread filepath = none →
      detect_from_file cv d filepath =
        Except.error (PyError.valueError (imreadErrorMsg filepath))) ∧
    (∀ img, cv.imread filepath = some img →
      detect_from_file cv d filepath = Except.ok (detect_circles cv d img)) ∧
    (cv.imdecode image_bytes = none →
      detect_from_bytes cv d image_bytes =
        Except.error (PyError.valueError imdecodeErrorMsg)) ∧
    (∀ img, cv.imdecode image_bytes = some img →
      detect_from_bytes cv d image_bytes = Except.ok (detect_circles cv d img)) := by
  refine ⟨fun h => ?_, fun img h => ?_, fun h => ?_, fun img h => ?_⟩ <;>
    simp [detect_from_file, detect_from_bytes, h]

/-- A concrete path no test library decodes. -/
def probePath : String := "probe.png"

theorem detect_sources_input_error_iff_witness :
    detect_from_file cvNull defaultDetector probePath =
      Except.error (PyError.valueError (imreadErrorMsg probePath)) :=
  (detect_sources_input_error_iff cvNull defaultDetector probePath []).1 rfl

/-- C8 counterexample: the index marker disk is not drawn at one fixed
radius; drawOne passes labelRadius radius to the marker-disk call, and a
detected circle of radius 40 gets marker radius 20 while one of radius 80
gets marker radius 40. -/
theorem marker_radius_not_fixed : labelRadius 40 ≠ labelRadius 80 := by decide

/-- C8 amended: the marker disk is drawn at radius
max(15, min(radius // 2, 40)), half the detected radius clamped to the
band 15..40; in particular for detected radii between 30 and 80 it equals
radius // 2 and so varies with the detected radius. -/
theorem marker_radius_clamped_half (r : Nat) (h1 : 30 ≤ r) (h2 : r ≤ 80) :
    labelRadius r = r / 2 ∧ 15 ≤ labelRadius r ∧ labelRadius r ≤ 40 := by
  unfold labelRadius
  omega

theorem marker_radius_clamped_half_witness :
    30 ≤ 50 ∧ 50 ≤ 80 ∧
      (labelRadius 50 = 50 / 2 ∧ 15 ≤ labelRadius 50 ∧ labelRadius 50 ≤ 40) :=
  ⟨by decide, by decide, marker_radius_clamped_half 50 (by decide) (by decide)⟩

/-- C1: on a uniform blank image (no dark regions, hence no edge evidence
for the accumulator) detect_circles returns count = 0, an empty circle
list, and an annotated image pixel-identical to the input: the Hough call
returns None, the drawing loop never runs, and the untouched copy of the
input is returned. -/
theorem blank_image_detect (cv : CvLib) (d : CircleDetector) (image : Image)
    (hU : UniformImage image)
    (h1 : PreservesUniform cv.cvtColorGray)
    (h2 : PreservesUniform cv.gaussianBlur)
    (h3 : PreservesUniform cv.clahe)
    (hB : BlankYieldsNone cv d) :
    detect_circles cv d image = (0, [], image) := by
  have hg : UniformImage (if image.ndims == 3 then cv.cvtColorGray image else image) := by
    split
    · exact h1 image hU
    · exact hU
  have he : UniformImage (enhancedOf cv image) := h3 _ (h2 _ hg)
  have hnone : cv.hough d (enhancedOf cv image) = none := hB _ he
  simp [detect_circles, hnone]

theorem blank_image_detect_witness :
    UniformImage imgUniform ∧
    PreservesUniform cvNull.cvtColorGray ∧
    PreservesUniform cvNull.gaussianBlur ∧
    PreservesUniform cvNull.clahe ∧
    BlankYieldsNone cvNull defaultDetector ∧
    detect_circles cvNull defaultDetector imgUniform = (0, [], imgUniform) :=
  ⟨by decide, fun _ h => h, fun _ h => h, fun _ h => h, fun _ _ => rfl,
   blank_image_detect cvNull defaultDetector imgUniform (by decide)
     (fun _ h => h) (fun _ h => h) (fun _ h => h) (fun _ _ => rfl)⟩

/-- The CircleCounterApp state fields touched by detection and manual
additions (main.py build, lines 47-53): the loaded image, the annotated
result image, the base result before manual additions, the detected
count, the list of manually added circles, the detected circle list and
the stored median radius (updated from the detected radii in
_process_and_display, line 381, initially 15). -/
structure AppState where
  current_image : Option Image
  result_image : Option Image
  base_result_image : Option Image
  detected_count : Nat
  manual_circles : List (Int × Int × Int)
  circles : List (Nat × Nat × Nat)
  median_radius : Nat

/-- Touch-to-pixel mapping of add_manual_circle, main.py lines 161-177:
uniform scale = min(widget_w / img_w, widget_h / img_h), centering
offsets, and a vertical flip for the y coordinate. -/
def touchToImage (rimg : Image) (widget_size widget_pos touch_pos : ℚ × ℚ) : ℚ × ℚ :=
  let img_h : ℚ := rimg.heightD
  let img_w : ℚ := rimg.widthD
  let scale := min (widget_size.1 / img_w) (widget_size.2 / img_h)
  let offset_x := widget_pos.1 + (widget_size.1 - img_w * scale) / 2
  let offset_y := widget_pos.2 + (widget_size.2 - img_h * scale) / 2
  ((touch_pos.1 - offset_x) / scale, img_h - (touch_pos.2 - offset_y) / scale)

/-- Drawing of one manual circle, main.py lines 188-196: white outline of
the given radius, filled white disk of radius 9, and the black sequence
label at font scale 0.32 centered with integer divisions tw // 2 and
th // 2. -/
def drawManualCircle (cv : CvLib) (rimg : Image) (x y r : Int) (total : Nat) : Image :=
  let rimg1 := cv.circle rimg (x, y) r (255, 255, 255) 2
  let rimg2 := cv.circle rimg1 (x, y) 9 (255, 255, 255) (-1)
  let label := toString total
  let fs : ℚ := 8 / 25
  let ts := cv.getTextSize label fs 1
  cv.putText rimg2 label (x - ((ts.1.1 / 2 : Nat) : Int), y + ((ts.1.2 / 2 : Nat) : Int))
    fs (0, 0, 0) 1

/-- CircleCounterApp.add_manual_circle, main.py lines 156-199, as a
transformer of the app state: it returns unchanged state when no result
image is loaded or the touch maps outside the image; otherwise it appends
(x, y, median_radius) to self.manual_circles, computes
total = detected_count + len(manual_circles), and draws the circle and
its label onto the stored result image.  The trailing _update_display and
_update_result_text calls touch only widget properties outside this
state. -/
def add_manual_circle (cv : CvLib) (widget_size widget_pos : ℚ × ℚ)
    (st : AppState) (touch_pos : ℚ × ℚ) : AppState :=
  match st.result_image with
  | none => st
  | some rimg =>
    let q := touchToImage rimg widget_size widget_pos touch_pos
    if 0 ≤ q.1 ∧ q.1 < (rimg.widthD : ℚ) ∧ 0 ≤ q.2 ∧ q.2 < (rimg.heightD : ℚ) then
      let x := pyInt q.1
      let y := pyInt q.2
      let r : Int := st.median_radius
      let manual := st.manual_circles ++ [(x, y, r)]
      let total := st.detected_count + manual.length
      { st with
        result_image := some (drawManualCircle cv rimg x y r total),
        manual_circles := manual }
    else st

/-- A concrete 2x2 color image for the app-state test inputs. -/
def imgSquare : Image := ⟨3, [[[0, 0, 0], [0, 0, 0]], [[0, 0, 0], [0, 0, 0]]]⟩

/-- A concrete app state over imgSquare whose stored median radius is the
given value, as left by a detection run. -/
def appSt (mr : Nat) : AppState :=
  ⟨some imgSquare, some imgSquare, some imgSquare, 0, [], [], mr⟩

/-- C9 counterexample: add_manual_circle is not a pure function of an
(image, x, y, radius, sequence_number) argument list.  The code takes
only the touch position and reads the radius from the app's stored
median_radius, which is derived from the last detection: two app states
holding the same images, the same touch and the same geometry but
different stored median radii yield different appended circles. -/
theorem add_manual_circle_not_pure :
    (add_manual_circle cvNull (2, 2) (0, 0) (appSt 10) (1, 1)).manual_circles ≠
      (add_manual_circle cvNull (2, 2) (0, 0) (appSt 20) (1, 1)).manual_circles := by
  have h10 : (add_manual_circle cvNull (2, 2) (0, 0) (appSt 10) (1, 1)).manual_circles
      = [(1, 1, 10)] := by
    norm_num [add_manual_circle, appSt, touchToImage, imgSquare, Image.heightD,
      Image.widthD, pyInt]
  have h20 : (add_manual_circle cvNull (2, 2) (0, 0) (appSt 20) (1, 1)).manual_circles
      = [(1, 1, 20)] := by
    norm_num [add_manual_circle, appSt, touchToImage, imgSquare, Image.heightD,
      Image.widthD, pyInt]
  rw [h10, h20]
  simp

/-- C9 amended: add_manual_circle is a stateful GUI method taking only the
touch position.  When a result image is loaded and the touch maps inside
it, the call appends exactly one circle (mapped x, mapped y, radius =
stored median radius of the last detection) to the manual circle list,
leaving every previously recorded circle's position and radius unchanged,
and redraws the stored result image with that circle and the label
detected_count + number of manual circles; the remaining state fields are
untouched. -/
theorem add_manual_circle_appends_one (cv : CvLib) (ws wp tp : ℚ × ℚ)
    (st : AppState) (rimg : Image)
    (hres : st.result_image = some rimg)
    (hin : 0 ≤ (touchToImage rimg ws wp tp).1 ∧
      (touchToImage rimg ws wp tp).1 < (rimg.widthD : ℚ) ∧
      0 ≤ (touchToImage rimg ws wp tp).2 ∧
      (touchToImage rimg ws wp tp).2 < (rimg.heightD : ℚ)) :
    (add_manual_circle cv ws wp st tp).manual_circles =
      st.manual_circles ++
        [(pyInt (touchToImage rimg ws wp tp).1, pyInt (touchToImage rimg ws wp tp).2,
          (st.median_radius : Int))] ∧
    (add_manual_circle cv ws wp st tp).result_image =
      some (drawManualCircle cv rimg (pyInt (touchToImage rimg ws wp tp).1)
        (pyInt (touchToImage rimg ws wp tp).2) (st.median_radius : Int)
        (st.detected_count + (st.manual_circles.length + 1))) ∧
    (add_manual_circle cv ws wp st tp).detected_count = st.detected_count ∧
    (add_manual_circle cv ws wp st tp).median_radius = st.median_radius ∧
    (add_manual_circle cv ws wp st tp).circles = st.circles ∧
    (add_manual_circle cv ws wp st tp).base_result_image = st.base_result_image ∧
    (add_manual_circle cv ws wp st tp).current_image = st.current_image := by
  simp only [add_manual_circle, hres, if_pos hin]
  simp [List.length_append]

theorem add_manual_circle_appends_one_witness :
    (appSt 10).result_image = some imgSquare ∧
    (add_manual_circle cvNull (2, 2) (0, 0) (appSt 10) (1, 1)).manual_circles =
      (appSt 10).manual_circles ++
        [(pyInt (touchToImage imgSquare (2, 2) (0, 0) (1, 1)).1,
          pyInt (touchToImage imgSquare (2, 2) (0, 0) (1, 1)).2,
          ((appSt 10).median_radius : Int))] :=
  ⟨rfl,
   (add_manual_circle_appends_one cvNull (2, 2) (0, 0) (1, 1) (appSt 10) imgSquare rfl
     (by norm_num [touchToImage, imgSquare, Image.heightD, Image.widthD])).1⟩

/-- Modelled from the spec: a pooled circle candidate of the consolidation
pipeline (section 3), produced by the threshold and transform generators
that are part of the repository's elaborate variant but absent from src/:
float center, positive integer radius and a quality score. -/
structure Candidate where
  x : ℚ
  y : ℚ
  radius : Nat
  quality : ℚ

/-- Modelled from the spec: the tunable constants of the Consolidator and
Layout Orderer (sections 4.4 and 4.5): duplicate-distance multiplier k
(about 1.2-1.4), the multiplicative outlier band (about 0.3-0.5 to
2.0-2.5 times the median) and the fixed row-band height (about 15-18 px). -/
structure SpecConfig where
  dupK : ℚ
  outlierLo : ℚ
  outlierHi : ℚ
  rowBand : ℚ

/-- Squared Euclidean distance between two candidate centers. -/
def dist2 (a b : Candidate) : ℚ := (a.x - b.x) ^ 2 + (a.y - b.y) ^ 2

lemma dist2_comm (a b : Candidate) : dist2 a b = dist2 b a := by
  unfold dist2; ring

/-- Ascending sort of a list of rationals. -/
def sortedRats (l : List ℚ) : List ℚ := List.insertionSort (fun a b => a ≤ b) l

/-- Median of a list of rationals as numpy computes it: middle element of
the sorted list for odd length, mean of the two middle elements for even
length. -/
def medianQ (l : List ℚ) : ℚ :=
  if (sortedRats l).length % 2 = 1 then
    (sortedRats l).getD ((sortedRats l).length / 2) 0
  else
    ((sortedRats l).getD ((sortedRats l).length / 2 - 1) 0 +
      (sortedRats l).getD ((sortedRats l).length / 2) 0) / 2

/-- Quality-descending comparison used to rank pooled candidates. -/
def qualityGe (a b : Candidate) : Prop := b.quality ≤ a.quality

instance : DecidableRel qualityGe := fun a b =>
  inferInstanceAs (Decidable (b.quality ≤ a.quality))

instance : IsTotal Candidate qualityGe := ⟨fun a b => le_total b.quality a.quality⟩

instance : IsTrans Candidate qualityGe :=
  ⟨fun _ _ _ h1 h2 => le_trans h2 h1⟩

/-- Modelled from the spec: the greedy deduplication walk of the
Consolidator (section 4.4), absent from src/.  Candidates are visited in
quality-descending order; one is kept only if its center is farther than
min_center_distance from every already-kept center.  Distances are
compared squared, which is equivalent for the nonnegative
min_center_distance. -/
def dedupGo (d2 : ℚ) (kept : List Candidate) : List Candidate → List Candidate
  | [] => kept
  | c :: rest =>
    if ∀ k ∈ kept, d2 < dist2 k c then dedupGo d2 (kept ++ [c]) rest
    else dedupGo d2 kept rest

/-- Modelled from the spec: min_center_distance = median radius of the
pooled candidates times the duplicate-distance multiplier k
(section 4.4). -/
def minCenterDistance (cfg : SpecConfig) (pooled : List Candidate) : ℚ :=
  medianQ (pooled.map (fun c => (c.radius : ℚ))) * cfg.dupK

/-- Modelled from the spec: the deduplication stage of the Consolidator
(section 4.4), absent from src/: sort the pooled candidates by descending
quality and keep each one only when its center is farther than
min_center_distance from every already-kept center. -/
def dedupSurvivors (cfg : SpecConfig) (pooled : List Candidate) : List Candidate :=
  dedupGo (minCenterDistance cfg pooled * minCenterDistance cfg pooled) []
    (List.insertionSort qualityGe pooled)

/-- Modelled from the spec: the median radius recomputed over the
deduplication survivors (section 4.4). -/
def survivorMedian (cfg : SpecConfig) (pooled : List Candidate) : ℚ :=
  medianQ ((dedupSurvivors cfg pooled).map (fun c => (c.radius : ℚ)))

/-- Modelled from the spec: the Consolidator (section 4.4), absent from
src/: greedy deduplication followed by outlier rejection, which, when
more than 3 candidates survive deduplication, drops every survivor whose
radius falls outside the multiplicative band around the survivors' median
radius. -/
def consolidate (cfg : SpecConfig) (pooled : List Candidate) : List Candidate :=
  if 3 < (dedupSurvivors cfg pooled).length then
    (dedupSurvivors cfg pooled).filter (fun c =>
      decide (cfg.outlierLo * survivorMedian cfg pooled ≤ (c.radius : ℚ) ∧
        (c.radius : ℚ) ≤ cfg.outlierHi * survivorMedian cfg pooled))
  else dedupSurvivors cfg pooled

/-- Modelled from the spec: the row bucket of the Layout Orderer
(section 4.5), absent from src/: the circle's row coordinate bucketed
into bands of the fixed height. -/
def rowBucket (cfg : SpecConfig) (c : Candidate) : Int := ⌊c.y / cfg.rowBand⌋

/-- Modelled from the spec: the reading-order comparison of the Layout
Orderer (section 4.5): primarily ascending row bucket, then ascending x
within a bucket. -/
def layoutLe (cfg : SpecConfig) (a b : Candidate) : Prop :=
  rowBucket cfg a < rowBucket cfg b ∨ (rowBucket cfg a = rowBucket cfg b ∧ a.x ≤ b.x)

instance (cfg : SpecConfig) : DecidableRel (layoutLe cfg) := fun a b =>
  inferInstanceAs (Decidable (rowBucket cfg a < rowBucket cfg b ∨
    (rowBucket cfg a = rowBucket cfg b ∧ a.x ≤ b.x)))

instance (cfg : SpecConfig) : IsTotal Candidate (layoutLe cfg) := by
  refine ⟨fun a b => ?_⟩
  rcases lt_trichotomy (rowBucket cfg a) (rowBucket cfg b) with h | h | h
  · exact Or.inl (Or.inl h)
  · rcases le_total a.x b.x with hx | hx
    · exact Or.inl (Or.inr ⟨h, hx⟩)
    · exact Or.inr (Or.inr ⟨h.symm, hx⟩)
  · exact Or.inr (Or.inl h)

instance (cfg : SpecConfig) : IsTrans Candidate (layoutLe cfg) := by
  refine ⟨fun a b c hab hbc => ?_⟩
  rcases hab with h1 | ⟨e1, x1⟩
  · rcases hbc with h2 | ⟨e2, _⟩
    · exact Or.inl (h1.trans h2)
    · exact Or.inl (e2 ▸ h1)
  · rcases hbc with h2 | ⟨e2, x2⟩
    · exact Or.inl (e1 ▸ h2)
    · exact Or.inr ⟨e1.trans e2, x1.trans x2⟩

/-- Modelled from the spec: the Layout Orderer (section 4.5), absent from
src/: sort the consolidated circles by (row_bucket, x) ascending. -/
def layoutOrder (cfg : SpecConfig) (l : List Candidate) : List Candidate :=
  List.insertionSort (layoutLe cfg) l

/-- Modelled from the spec: the back half of the detection pipeline
(section 2), absent from src/: the pooled candidates of all generators
run through the Consolidator and then the Layout Orderer, yielding the
ordered circle list that detect returns. -/
def specPipeline (cfg : SpecConfig) (pooled : List Candidate) : List Candidate :=
  layoutOrder cfg (consolidate cfg pooled)

lemma getD_nonneg (l : List ℚ) (h : ∀ x ∈ l, 0 ≤ x) (i : Nat) : 0 ≤ l.getD i 0 := by
  rcases lt_or_le i l.length with hi | hi
  · rw [List.getD_eq_getElem l 0 hi]
    exact h _ (List.getElem_mem hi)
  · rw [List.getD_eq_default l 0 hi]

lemma medianQ_nonneg (l : List ℚ) (h : ∀ x ∈ l, 0 ≤ x) : 0 ≤ medianQ l := by
  have hs : ∀ x ∈ sortedRats l, 0 ≤ x := fun x hx =>
    h x ((List.perm_insertionSort _ l).mem_iff.mp hx)
  unfold medianQ
  split
  · exact getD_nonneg _ hs _
  · exact div_nonneg (add_nonneg (getD_nonneg _ hs _) (getD_nonneg _ hs _)) (by norm_num)

lemma dedupGo_pairwise (d2 : ℚ) (l : List Candidate) :
    ∀ kept, kept.Pairwise (fun a b => d2 < dist2 a b) →
      (dedupGo d2 kept l).Pairwise (fun a b => d2 < dist2 a b) := by
  induction l with
  | nil => intro kept h; simpa [dedupGo] using h
  | cons c rest ih =>
    intro kept h
    simp only [dedupGo]
    split
    · next hall =>
      refine ih _ (List.pairwise_append.mpr ⟨h, by simp, ?_⟩)
      intro a ha b hb
      rw [List.mem_singleton] at hb
      subst hb
      exact hall a ha
    · exact ih _ h

lemma minCenterDistance_nonneg (cfg : SpecConfig) (pooled : List Candidate)
    (hk : 0 ≤ cfg.dupK) : 0 ≤ minCenterDistance cfg pooled := by
  refine mul_nonneg (medianQ_nonneg _ ?_) hk
  intro x hx
  rcases List.mem_map.mp hx with ⟨c, _, rfl⟩
  exact Nat.cast_nonneg _

/-- C3: under a nonnegative duplicate-distance multiplier, every pair of
distinct circles in the pipeline's result has Euclidean center distance
of at least min_center_distance: greedy deduplication only keeps
candidates farther than that from every kept center, and the outlier
filter and layout sort only remove or permute elements. -/
theorem result_centers_separated (cfg : SpecConfig) (pooled : List Candidate)
    (hk : 0 ≤ cfg.dupK) :
    (specPipeline cfg pooled).Pairwise (fun a b =>
      ((minCenterDistance cfg pooled : ℚ) : ℝ) ≤ Real.sqrt ((dist2 a b : ℚ) : ℝ)) := by
  have hd0 : (0 : ℝ) ≤ ((minCenterDistance cfg pooled : ℚ) : ℝ) := by
    exact_mod_cast minCenterDistance_nonneg cfg pooled hk
  have h1 : (dedupSurvivors cfg pooled).Pairwise
      (fun a b => minCenterDistance cfg pooled * minCenterDistance cfg pooled < dist2 a b) :=
    dedupGo_pairwise _ _ [] List.Pairwise.nil
  have h2 : (consolidate cfg pooled).Pairwise
      (fun a b => minCenterDistance cfg pooled * minCenterDistance cfg pooled < dist2 a b) := by
    unfold consolidate
    split
    · exact List.Pairwise.sublist (List.filter_sublist _) h1
    · exact h1
  have hperm : (specPipeline cfg pooled).Perm (consolidate cfg pooled) :=
    List.perm_insertionSort _ _
  have hsym : ∀ {a b : Candidate},
      minCenterDistance cfg pooled * minCenterDistance cfg pooled < dist2 a b →
      minCenterDistance cfg pooled * minCenterDistance cfg pooled < dist2 b a := by
    intro a b hab
    rwa [dist2_comm]
  have h3 : (specPipeline cfg pooled).Pairwise
      (fun a b => minCenterDistance cfg pooled * minCenterDistance cfg pooled < dist2 a b) :=
    (hperm.pairwise_iff hsym).mpr h2
  refine h3.imp ?_
  intro a b hab
  calc ((minCenterDistance cfg pooled : ℚ) : ℝ)
      = Real.sqrt (((minCenterDistance cfg pooled : ℚ) : ℝ) ^ 2) :=
        (Real.sqrt_sq hd0).symm
    _ ≤ Real.sqrt ((dist2 a b : ℚ) : ℝ) := by
        refine Real.sqrt_le_sqrt ?_
        rw [sq]
        exact_mod_cast le_of_lt hab

/-- A concrete consolidation configuration inside the spec's recommended
ranges: k = 1.3, outlier band 0.4 to 2.0, row-band height 16. -/
def cfgSample : SpecConfig := ⟨13 / 10, 2 / 5, 2, 16⟩

/-- Two concrete far-apart candidates of radius 10. -/
def pooledPair : List Candidate := [⟨0, 0, 10, 1⟩, ⟨100, 0, 10, 1⟩]

theorem result_centers_separated_witness :
    0 ≤ cfgSample.dupK ∧
    (specPipeline cfgSample pooledPair).Pairwise (fun a b =>
      ((minCenterDistance cfgSample pooledPair : ℚ) : ℝ) ≤
        Real.sqrt ((dist2 a b : ℚ) : ℝ)) :=
  ⟨by norm_num [cfgSample],
   result_centers_separated cfgSample pooledPair (by norm_num [cfgSample])⟩

/-- C4: the pipeline's result is in row-major reading order: for every
pair of consecutive circles, the row bucket of the first is at most the
row bucket of the second, and when the buckets are equal the x coordinate
of the first is at most that of the second. -/
theorem result_row_major_ordered (cfg : SpecConfig) (pooled : List Candidate) :
    (specPipeline cfg pooled).Chain' (fun a b =>
      rowBucket cfg a ≤ rowBucket cfg b ∧
        (rowBucket cfg a = rowBucket cfg b → a.x ≤ b.x)) := by
  have hs : List.Sorted (layoutLe cfg) (specPipeline cfg pooled) :=
    List.sorted_insertionSort _ _
  refine (List.Pairwise.chain' hs).imp ?_
  intro a b hab
  rcases hab with h | ⟨he, hx⟩
  · exact ⟨le_of_lt h, fun hc => absurd hc (ne_of_lt h)⟩
  · exact ⟨le_of_eq he, fun _ => hx⟩

/-- C7: whenever the pipeline returns more than 3 circles, the outlier
filter necessarily ran (at most 3 could otherwise be returned), so every
returned radius lies within the configured multiplicative band around the
deduplication survivors' median radius. -/
theorem result_radii_within_band (cfg : SpecConfig) (pooled : List Candidate)
    (h : 3 < (specPipeline cfg pooled).length) :
    ∀ c ∈ specPipeline cfg pooled,
      cfg.outlierLo * survivorMedian cfg pooled ≤ (c.radius : ℚ) ∧
      (c.radius : ℚ) ≤ cfg.outlierHi * survivorMedian cfg pooled := by
  intro c hc
  have hperm : (specPipeline cfg pooled).Perm (consolidate cfg pooled) :=
    List.perm_insertionSort _ _
  have hc' : c ∈ consolidate cfg pooled := hperm.mem_iff.mp hc
  have hlen : (specPipeline cfg pooled).length = (consolidate cfg pooled).length :=
    hperm.length_eq
  by_cases h3 : 3 < (dedupSurvivors cfg pooled).length
  · rw [consolidate, if_pos h3] at hc'
    exact of_decide_eq_true (List.mem_filter.mp hc').2
  · exfalso
    rw [consolidate, if_neg h3] at hlen
    omega

/-- Four concrete pairwise-distant candidates of radius 10, all of which
survive consolidation. -/
def pooledQuad : List Candidate :=
  [⟨0, 0, 10, 1⟩, ⟨100, 0, 10, 1⟩, ⟨0, 100, 10, 1⟩, ⟨100, 100, 10, 1⟩]

theorem result_radii_within_band_witness :
    3 < (specPipeline cfgSample pooledQuad).length ∧
    ∀ c ∈ specPipeline cfgSample pooledQuad,
      cfgSample.outlierLo * survivorMedian cfgSample pooledQuad ≤ (c.radius : ℚ) ∧
      (c.radius : ℚ) ≤ cfgSample.outlierHi * survivorMedian cfgSample pooledQuad :=
  ⟨by
    norm_num [specPipeline, layoutOrder, consolidate, dedupSurvivors, dedupGo,
      minCenterDistance, survivorMedian, medianQ, sortedRats, dist2, qualityGe,
      layoutLe, rowBucket, cfgSample, pooledQuad, List.insertionSort,
      List.orderedInsert, List.filter],
   result_radii_within_band cfgSample pooledQuad (by
    norm_num [specPipeline, layoutOrder, consolidate, dedupSurvivors, dedupGo,
      minCenterDistance, survivorMedian, medianQ, sortedRats, dist2, qualityGe,
      layoutLe, rowBucket, cfgSample, pooledQuad, List.insertionSort,
      List.orderedInsert, List.filter])⟩
